import Mathlib

/-!
# Verification of the laser power-beaming link model

A shallow embedding of `laser_app_beamviz_final.py`: the Gaussian-beam
geometry functions (beam radius at distance, offset-aware circular-aperture
overlap with a modified Bessel factor) and the ten-stage multiplicative
power-budget chain, over exact real arithmetic.

The modified Bessel function of the first kind of order zero is modelled by
its standard integral representation
`I0 x = (1/pi) * integral over theta in [0, pi] of exp (x * cos theta)`
(Abramowitz & Stegun 9.6.16), which agrees with the power-series definition
used by `scipy.special.i0`.
-/

noncomputable section

namespace LaserPower

open Real intervalIntegral

/-- Input parameters of one evaluation of the link model, mirroring the
sidebar inputs of the source (`wavelength` is a fixed constant, below). -/
structure LinkParams where
  inputPowerWatts : ℝ
  beamWaist : ℝ
  distance : ℝ
  receiverRadius : ℝ
  offset : ℝ
  pointingError : ℝ
  laserCount : ℕ

/-- `wavelength = 445e-9` m, fixed in the source. -/
def wavelength : ℝ := 445e-9

/-- `driver_eff = 0.95`. -/
def driver_eff : ℝ := 0.95

/-- `laser_eff = 0.30`. -/
def laser_eff : ℝ := 0.30

/-- `optical_eff = 0.97`. -/
def optical_eff : ℝ := 0.97

/-- `receiver_optics_eff = (1 - 0.01)**4`. -/
def receiver_optics_eff : ℝ := (1 - 0.01) ^ 4

/-- `pv_eff = 0.60`. -/
def pv_eff : ℝ := 0.60

/-- `conditioning_eff = 0.90`. -/
def conditioning_eff : ℝ := 0.90

/-- Modified Bessel function of the first kind, order zero, via its integral
representation: the model of `scipy.special.i0`. -/
def besselI0 (x : ℝ) : ℝ :=
  (1 / Real.pi) * ∫ θ in (0:ℝ)..Real.pi, Real.exp (x * Real.cos θ)

/-- `w_final = w0 * np.sqrt(1 + (wavelength * distance / (np.pi * w0**2))**2)`,
the Gaussian-beam radius at axial distance `dist` (source line 60), stated for
a general wavelength `lam`. -/
def w_final (w0 dist lam : ℝ) : ℝ :=
  w0 * Real.sqrt (1 + (lam * dist / (Real.pi * w0 ^ 2)) ^ 2)

/-- `gaussian_overlap(R, w, d)` from the source:
`term = (4*R*d)/(w**2); eta = 1 - exp(-2*d**2/w**2)*exp(-2*R**2/w**2)*i0(term);
return max(eta, 0.0)`. -/
def gaussian_overlap (R w d : ℝ) : ℝ :=
  max (1 - Real.exp (-2 * d ^ 2 / w ^ 2) * Real.exp (-2 * R ^ 2 / w ^ 2) *
    besselI0 (4 * R * d / w ^ 2)) 0

/-- The spec's closed form for `circularOverlapEfficiency`: `besselArg =
4·R·d / w²`; result `max (0, 1 − exp(−2·d²/w²)·exp(−2·R²/w²)·I₀ besselArg)`. -/
def circularOverlapEfficiencySpec (R w d : ℝ) : ℝ :=
  max 0 (1 - Real.exp (-2 * d ^ 2 / w ^ 2) * Real.exp (-2 * R ^ 2 / w ^ 2) *
    besselI0 (4 * R * d / w ^ 2))

/-- The spec's `centeredApertureEfficiency(R, w) = 1 − exp(−2·R²/w²)`. -/
def centeredApertureEfficiency (R w : ℝ) : ℝ :=
  1 - Real.exp (-2 * R ^ 2 / w ^ 2)

/-- `required_driver_input = input_power / driver_eff` (source line 36). -/
def required_driver_input (p : LinkParams) : ℝ :=
  p.inputPowerWatts / driver_eff

/-- `driver_output = required_driver_input * driver_eff` (source line 37). -/
def driver_output (p : LinkParams) : ℝ :=
  required_driver_input p * driver_eff

/-- `laser_output = driver_output * laser_eff * num_lasers` (source line 41). -/
def laser_output (p : LinkParams) : ℝ :=
  driver_output p * laser_eff * (p.laserCount : ℝ)

/-- `optics_output = laser_output * optical_eff` (source line 45). -/
def optics_output (p : LinkParams) : ℝ :=
  laser_output p * optical_eff

/-- `delta_r = pointing_error * distance` (source line 49). -/
def delta_r (p : LinkParams) : ℝ :=
  p.pointingError * p.distance

/-- `pointing_eff = np.exp(-2 * (delta_r / w0)**2)` (source line 50). -/
def pointing_eff (p : LinkParams) : ℝ :=
  Real.exp (-2 * (delta_r p / p.beamWaist) ^ 2)

/-- `pointing_output = optics_output * pointing_eff` (source line 51). -/
def pointing_output (p : LinkParams) : ℝ :=
  optics_output p * pointing_eff p

/-- `atmospheric_output = pointing_output` (source line 55): pass-through. -/
def atmospheric_output (p : LinkParams) : ℝ :=
  pointing_output p

/-- The beam radius at the receiver plane used by the chain (source line 60). -/
def wFinal (p : LinkParams) : ℝ :=
  w_final p.beamWaist p.distance wavelength

/-- `geo_eff = gaussian_overlap(receiver_radius, w_final, offset)` (line 68). -/
def geo_eff (p : LinkParams) : ℝ :=
  gaussian_overlap p.receiverRadius (wFinal p) p.offset

/-- `geo_output = atmospheric_output * geo_eff` (source line 69). -/
def geo_output (p : LinkParams) : ℝ :=
  atmospheric_output p * geo_eff p

/-- `collection_eff = 1 - np.exp(-2 * (receiver_radius / w_final)**2)`
(source line 73). -/
def collection_eff (p : LinkParams) : ℝ :=
  1 - Real.exp (-2 * (p.receiverRadius / wFinal p) ^ 2)

/-- `collection_output = geo_output * collection_eff` (source line 74). -/
def collection_output (p : LinkParams) : ℝ :=
  geo_output p * collection_eff p

/-- `receiver_optics_output = collection_output * receiver_optics_eff`
(source line 78). -/
def receiver_optics_output (p : LinkParams) : ℝ :=
  collection_output p * receiver_optics_eff

/-- `pv_area = np.pi * receiver_radius**2` (source line 82). -/
def pv_area (p : LinkParams) : ℝ :=
  Real.pi * p.receiverRadius ^ 2

/-- `pv_output = receiver_optics_output * pv_area * pv_eff` (source line 83). -/
def pv_output (p : LinkParams) : ℝ :=
  receiver_optics_output p * pv_area p * pv_eff

/-- `final_output = pv_output * conditioning_eff` (source line 87). -/
def final_output (p : LinkParams) : ℝ :=
  pv_output p * conditioning_eff

/-- The total-efficiency metric `(final_output / required_driver_input) * 100`
(source line 97). -/
def total_efficiency (p : LinkParams) : ℝ :=
  final_output p / required_driver_input p * 100

/-- The (label, power) pairs appended to `labels`/`power` in source order
(lines 33-89). -/
def stages (p : LinkParams) : List (String × ℝ) :=
  [("Driver Output", driver_output p),
   ("Laser Output", laser_output p),
   ("After Optics", optics_output p),
   ("After Pointing", pointing_output p),
   ("Atmospheric (Skipped)", atmospheric_output p),
   ("After Geometric Loss", geo_output p),
   ("After Collection", collection_output p),
   ("After Receiver Optics", receiver_optics_output p),
   ("PV Output", pv_output p),
   ("Final Output", final_output p)]

/-- The same parameter set with the laser count doubled. -/
def doubleLasers (p : LinkParams) : LinkParams :=
  ⟨p.inputPowerWatts, p.beamWaist, p.distance, p.receiverRadius,
    p.offset, p.pointingError, 2 * p.laserCount⟩

/-- The sidebar default parameter set (400 W, 0.05 m waist, 5 m distance,
0.3 m receiver, 0.01 m offset, 1e-8 rad pointing error, one laser). -/
def pDefault : LinkParams := ⟨400, 0.05, 5, 0.3, 0.01, 1e-8, 1⟩

/-- The default parameter set with four lasers. -/
def pQuad : LinkParams := ⟨400, 0.05, 5, 0.3, 0.01, 1e-8, 4⟩

/-! ## Basic facts about the Bessel factor -/

lemma besselI0_integrand_continuous (x : ℝ) :
    Continuous fun θ : ℝ => Real.exp (x * Real.cos θ) :=
  Real.continuous_exp.comp (continuous_const.mul Real.continuous_cos)

lemma one_le_besselI0 (x : ℝ) : 1 ≤ besselI0 x := by
  have hpi : (0:ℝ) < Real.pi := Real.pi_pos
  have hlin : ∫ θ in (0:ℝ)..Real.pi, (1 + x * Real.cos θ) = Real.pi := by
    rw [intervalIntegral.integral_add intervalIntegrable_const
      ((continuous_const.mul Real.continuous_cos).intervalIntegrable _ _)]
    rw [intervalIntegral.integral_const]
    rw [intervalIntegral.integral_const_mul, integral_cos]
    simp
  have hmono : (∫ θ in (0:ℝ)..Real.pi, (1 + x * Real.cos θ)) ≤
      ∫ θ in (0:ℝ)..Real.pi, Real.exp (x * Real.cos θ) := by
    apply intervalIntegral.integral_mono_on hpi.le
      (intervalIntegrable_const.add
        ((continuous_const.mul Real.continuous_cos).intervalIntegrable _ _))
      ((besselI0_integrand_continuous x).intervalIntegrable _ _)
    intro θ _
    linarith [Real.add_one_le_exp (x * Real.cos θ)]
  have hπ : Real.pi ≤ ∫ θ in (0:ℝ)..Real.pi, Real.exp (x * Real.cos θ) :=
    calc Real.pi = ∫ θ in (0:ℝ)..Real.pi, (1 + x * Real.cos θ) := hlin.symm
    _ ≤ _ := hmono
  rw [besselI0]
  calc (1:ℝ) = 1 / Real.pi * Real.pi := by field_simp
  _ ≤ 1 / Real.pi * ∫ θ in (0:ℝ)..Real.pi, Real.exp (x * Real.cos θ) :=
      mul_le_mul_of_nonneg_left hπ (by positivity)

lemma besselI0_pos (x : ℝ) : 0 < besselI0 x :=
  lt_of_lt_of_le one_pos (one_le_besselI0 x)

lemma besselI0_nonneg (x : ℝ) : 0 ≤ besselI0 x :=
  (besselI0_pos x).le

lemma besselI0_zero : besselI0 0 = 1 := by
  have : (fun θ : ℝ => Real.exp (0 * Real.cos θ)) = fun _ : ℝ => (1:ℝ) := by
    funext θ; simp
  rw [besselI0, this, intervalIntegral.integral_const]
  have hpi : Real.pi ≠ 0 := Real.pi_ne_zero
  field_simp

/-- `t ↦ exp (−t) * I₀ t` is antitone on the nonnegative reals: the product
`exp (−t(1 − cos θ))` under the integral sign is pointwise antitone in `t`. -/
lemma exp_mul_besselI0_antitone {s t : ℝ} (hs : 0 ≤ s) (hst : s ≤ t) :
    Real.exp (-t) * besselI0 t ≤ Real.exp (-s) * besselI0 s := by
  have key : ∀ u : ℝ, Real.exp (-u) * besselI0 u =
      (1 / Real.pi) * ∫ θ in (0:ℝ)..Real.pi, Real.exp (-u + u * Real.cos θ) := by
    intro u
    rw [besselI0, mul_left_comm, ← intervalIntegral.integral_const_mul]
    simp only [← Real.exp_add]
  have hcont : ∀ u : ℝ, Continuous fun θ : ℝ => Real.exp (-u + u * Real.cos θ) :=
    fun u => Real.continuous_exp.comp
      (continuous_const.add (continuous_const.mul Real.continuous_cos))
  rw [key t, key s]
  apply mul_le_mul_of_nonneg_left _ (by positivity)
  apply intervalIntegral.integral_mono_on Real.pi_pos.le
    ((hcont t).intervalIntegrable _ _) ((hcont s).intervalIntegrable _ _)
  intro θ _
  apply Real.exp_le_exp.mpr
  have hc : Real.cos θ - 1 ≤ 0 := by linarith [Real.cos_le_one θ]
  nlinarith [mul_le_mul_of_nonpos_right hst hc]

/-- Lower bound `exp 2 / 3 ≤ I₀ 4`, from `cos θ ≥ 1/2` on `[0, π/3]`. -/
lemma exp_two_div_three_le_besselI0_four : Real.exp 2 / 3 ≤ besselI0 4 := by
  have hpi : (0:ℝ) < Real.pi := Real.pi_pos
  have h3 : (0:ℝ) < Real.pi / 3 := by positivity
  have hint1 : Real.pi / 3 * Real.exp 2 ≤
      ∫ θ in (0:ℝ)..(Real.pi / 3), Real.exp (4 * Real.cos θ) := by
    calc Real.pi / 3 * Real.exp 2
        = ∫ _ in (0:ℝ)..(Real.pi / 3), Real.exp 2 := by
          rw [intervalIntegral.integral_const, smul_eq_mul]; ring
    _ ≤ ∫ θ in (0:ℝ)..(Real.pi / 3), Real.exp (4 * Real.cos θ) := by
          apply intervalIntegral.integral_mono_on h3.le intervalIntegrable_const
            ((besselI0_integrand_continuous 4).intervalIntegrable _ _)
          intro θ hθ
          apply Real.exp_le_exp.mpr
          have hcos : Real.cos (Real.pi / 3) ≤ Real.cos θ :=
            Real.cos_le_cos_of_nonneg_of_le_pi hθ.1 (by linarith) hθ.2
          rw [Real.cos_pi_div_three] at hcos
          linarith
  have hint2 : (0:ℝ) ≤ ∫ θ in (Real.pi / 3)..Real.pi, Real.exp (4 * Real.cos θ) := by
    apply intervalIntegral.integral_nonneg (by linarith)
    intro θ _; positivity
  have hsplit : (∫ θ in (0:ℝ)..(Real.pi / 3), Real.exp (4 * Real.cos θ)) +
      (∫ θ in (Real.pi / 3)..Real.pi, Real.exp (4 * Real.cos θ)) =
      ∫ θ in (0:ℝ)..Real.pi, Real.exp (4 * Real.cos θ) :=
    intervalIntegral.integral_add_adjacent_intervals
      ((besselI0_integrand_continuous 4).intervalIntegrable _ _)
      ((besselI0_integrand_continuous 4).intervalIntegrable _ _)
  have htot : Real.pi / 3 * Real.exp 2 ≤
      ∫ θ in (0:ℝ)..Real.pi, Real.exp (4 * Real.cos θ) := by
    rw [← hsplit]; linarith
  rw [besselI0]
  have hπ0 : Real.pi ≠ 0 := Real.pi_ne_zero
  calc Real.exp 2 / 3 = 1 / Real.pi * (Real.pi / 3 * Real.exp 2) := by
        field_simp
  _ ≤ 1 / Real.pi * ∫ θ in (0:ℝ)..Real.pi, Real.exp (4 * Real.cos θ) :=
      mul_le_mul_of_nonneg_left htot (by positivity)

/-- `exp (1/2) < exp 2 / 3`, i.e. `3 < exp (3/2)`. -/
lemma exp_half_lt_exp_two_div_three : Real.exp (1 / 2) < Real.exp 2 / 3 := by
  have h1 : Real.exp 2 = Real.exp (3 / 2) * Real.exp (1 / 2) := by
    rw [← Real.exp_add]; norm_num
  have h2 : (3:ℝ) < Real.exp (3 / 2) := by
    have ha : Real.exp (3 / 2) = Real.exp 1 * Real.exp (1 / 2) := by
      rw [← Real.exp_add]; norm_num
    have hb : (2.7182818283:ℝ) < Real.exp 1 := Real.exp_one_gt_d9
    have hc : (3:ℝ) / 2 ≤ Real.exp (1 / 2) := by
      linarith [Real.add_one_le_exp ((1:ℝ) / 2)]
    rw [ha]; nlinarith
  have hpos := Real.exp_pos ((1:ℝ) / 2)
  rw [h1]; nlinarith

/-! ## Facts about the overlap efficiency -/

lemma gaussian_overlap_nonneg (R w d : ℝ) : 0 ≤ gaussian_overlap R w d :=
  le_max_right _ 0

lemma gaussian_overlap_le_one (R w d : ℝ) : gaussian_overlap R w d ≤ 1 := by
  apply max_le _ zero_le_one
  have h : 0 ≤ Real.exp (-2 * d ^ 2 / w ^ 2) * Real.exp (-2 * R ^ 2 / w ^ 2) *
      besselI0 (4 * R * d / w ^ 2) :=
    mul_nonneg (mul_nonneg (Real.exp_pos _).le (Real.exp_pos _).le)
      (besselI0_nonneg _)
  linarith

lemma gaussian_overlap_zero_offset (R w : ℝ) :
    gaussian_overlap R w 0 = 1 - Real.exp (-2 * R ^ 2 / w ^ 2) := by
  have h0 : (4 * R * 0 / w ^ 2 : ℝ) = 0 := by ring
  have hd : (-2 * (0:ℝ) ^ 2 / w ^ 2) = 0 := by ring
  rw [gaussian_overlap, h0, hd, besselI0_zero, Real.exp_zero, one_mul, mul_one]
  apply max_eq_left
  have hle : Real.exp (-2 * R ^ 2 / w ^ 2) ≤ 1 := by
    rw [Real.exp_le_one_iff,
      show (-2 * R ^ 2 / w ^ 2 : ℝ) = -(2 * R ^ 2 / w ^ 2) from by ring,
      neg_nonpos]
    positivity
  linarith

/-- The subtracted product in `gaussian_overlap` grows as the beam radius
shrinks: factor it as `exp (−2(d−R)²/w²) * (exp (−t) * I₀ t)` with
`t = 4Rd/w²` and use that both factors are antitone in `1/w²`. -/
lemma overlap_product_mono_w {R d w₁ w₂ : ℝ} (hR : 0 ≤ R) (hd : 0 ≤ d)
    (hw1 : 0 < w₁) (hw12 : w₁ ≤ w₂) :
    Real.exp (-2 * d ^ 2 / w₁ ^ 2) * Real.exp (-2 * R ^ 2 / w₁ ^ 2) *
      besselI0 (4 * R * d / w₁ ^ 2) ≤
    Real.exp (-2 * d ^ 2 / w₂ ^ 2) * Real.exp (-2 * R ^ 2 / w₂ ^ 2) *
      besselI0 (4 * R * d / w₂ ^ 2) := by
  have hw2 : 0 < w₂ := lt_of_lt_of_le hw1 hw12
  have hsq : w₁ ^ 2 ≤ w₂ ^ 2 := pow_le_pow_left₀ hw1.le hw12 2
  have hsq1 : (0:ℝ) < w₁ ^ 2 := by positivity
  have hsq2 : (0:ℝ) < w₂ ^ 2 := by positivity
  have key : ∀ w : ℝ,
      Real.exp (-2 * d ^ 2 / w ^ 2) * Real.exp (-2 * R ^ 2 / w ^ 2) *
        besselI0 (4 * R * d / w ^ 2) =
      Real.exp (-2 * (d - R) ^ 2 / w ^ 2) *
        (Real.exp (-(4 * R * d / w ^ 2)) * besselI0 (4 * R * d / w ^ 2)) := by
    intro w
    rw [← Real.exp_add, ← mul_assoc, ← Real.exp_add]
    congr 2
    ring
  rw [key w₁, key w₂]
  have harg : 4 * R * d / w₂ ^ 2 ≤ 4 * R * d / w₁ ^ 2 := by
    rw [div_le_div_iff₀ hsq2 hsq1]
    nlinarith [mul_le_mul_of_nonneg_left hsq (show (0:ℝ) ≤ 4 * R * d by positivity)]
  have harg0 : (0:ℝ) ≤ 4 * R * d / w₂ ^ 2 := by positivity
  apply mul_le_mul
  · apply Real.exp_le_exp.mpr
    rw [div_le_div_iff₀ hsq1 hsq2]
    nlinarith [sq_nonneg (d - R)]
  · exact exp_mul_besselI0_antitone harg0 harg
  · exact mul_nonneg (Real.exp_pos _).le (besselI0_nonneg _)
  · exact (Real.exp_pos _).le

/-- The overlap efficiency is antitone in the beam radius. -/
lemma gaussian_overlap_anti_w {R d w₁ w₂ : ℝ} (hR : 0 ≤ R) (hd : 0 ≤ d)
    (hw1 : 0 < w₁) (hw12 : w₁ ≤ w₂) :
    gaussian_overlap R w₂ d ≤ gaussian_overlap R w₁ d := by
  apply max_le_max _ le_rfl
  have := overlap_product_mono_w hR hd hw1 hw12
  linarith

/-- The centered-aperture efficiency is monotone in the receiver radius. -/
lemma centered_mono_R {R₁ R₂ w : ℝ} (hR1 : 0 ≤ R₁) (hR12 : R₁ ≤ R₂) (hw : 0 < w) :
    centeredApertureEfficiency R₁ w ≤ centeredApertureEfficiency R₂ w := by
  rw [centeredApertureEfficiency, centeredApertureEfficiency]
  have hsq : (0:ℝ) < w ^ 2 := by positivity
  have hkey : -2 * R₂ ^ 2 / w ^ 2 ≤ -2 * R₁ ^ 2 / w ^ 2 := by
    rw [div_le_div_iff₀ hsq hsq]
    have h21 : R₁ ^ 2 ≤ R₂ ^ 2 := by nlinarith
    nlinarith [mul_le_mul_of_nonneg_right h21 hsq.le]
  linarith [Real.exp_le_exp.mpr hkey]

/-- The centered-aperture efficiency is antitone in the beam radius. -/
lemma centered_anti_w {R w₁ w₂ : ℝ} (hw1 : 0 < w₁) (hw12 : w₁ ≤ w₂) :
    centeredApertureEfficiency R w₂ ≤ centeredApertureEfficiency R w₁ := by
  rw [centeredApertureEfficiency, centeredApertureEfficiency]
  have hsq1 : (0:ℝ) < w₁ ^ 2 := by positivity
  have hsq2 : (0:ℝ) < w₂ ^ 2 := lt_of_lt_of_le hsq1 (pow_le_pow_left₀ hw1.le hw12 2)
  have hkey : -2 * R ^ 2 / w₁ ^ 2 ≤ -2 * R ^ 2 / w₂ ^ 2 := by
    rw [div_le_div_iff₀ hsq1 hsq2]
    nlinarith [sq_nonneg R, pow_le_pow_left₀ hw1.le hw12 2]
  linarith [Real.exp_le_exp.mpr hkey]

lemma centered_nonneg (R w : ℝ) : 0 ≤ centeredApertureEfficiency R w := by
  rw [centeredApertureEfficiency]
  have hle : Real.exp (-2 * R ^ 2 / w ^ 2) ≤ 1 := by
    rw [Real.exp_le_one_iff,
      show (-2 * R ^ 2 / w ^ 2 : ℝ) = -(2 * R ^ 2 / w ^ 2) from by ring,
      neg_nonpos]
    positivity
  linarith

lemma centered_le_one (R w : ℝ) : centeredApertureEfficiency R w ≤ 1 := by
  rw [centeredApertureEfficiency]
  linarith [Real.exp_pos (-2 * R ^ 2 / w ^ 2)]

/-- The driver stage cancels algebraically: `(P / 0.95) * 0.95 = P`. -/
lemma driver_output_eq (p : LinkParams) : driver_output p = p.inputPowerWatts := by
  rw [driver_output, required_driver_input, driver_eff]
  exact div_mul_cancel₀ _ (by norm_num)

/-! ## The claims -/

/-- C1: for every receiver radius `R`, beam radius `w > 0` and offset `d`,
`gaussian_overlap` returns exactly the spec's closed form
`max (0, 1 − exp(−2d²/w²)·exp(−2R²/w²)·I₀(4Rd/w²))`, floored at zero. -/
theorem overlap_matches_spec_formula (R w d : ℝ) (hw : 0 < w) :
    gaussian_overlap R w d = circularOverlapEfficiencySpec R w d := by
  rw [gaussian_overlap, circularOverlapEfficiencySpec]
  exact max_comm _ _

theorem overlap_matches_spec_formula_witness :
    (0:ℝ) < 2 ∧ gaussian_overlap 3 2 1 = circularOverlapEfficiencySpec 3 2 1 :=
  ⟨by norm_num, overlap_matches_spec_formula 3 2 1 (by norm_num)⟩

/-- C2: for waist `w0 > 0`, distance `z ≥ 0` and wavelength `lam > 0`, the
beam radius equals `w0·sqrt(1 + (lam·z/(π·w0²))²)`, is always at least `w0`,
and at `z = 0` equals `w0` exactly, for any wavelength. -/
theorem beam_radius_formula (w0 z lam : ℝ) (hw : 0 < w0) (hz : 0 ≤ z)
    (hl : 0 < lam) :
    w_final w0 z lam = w0 * Real.sqrt (1 + (lam * z / (Real.pi * w0 ^ 2)) ^ 2) ∧
    w0 ≤ w_final w0 z lam ∧ w_final w0 0 lam = w0 := by
  refine ⟨rfl, ?_, ?_⟩
  · have hone : (1:ℝ) ≤ 1 + (lam * z / (Real.pi * w0 ^ 2)) ^ 2 := by
      nlinarith [sq_nonneg (lam * z / (Real.pi * w0 ^ 2))]
    have hsq : Real.sqrt 1 ≤ Real.sqrt (1 + (lam * z / (Real.pi * w0 ^ 2)) ^ 2) :=
      Real.sqrt_le_sqrt hone
    rw [Real.sqrt_one] at hsq
    rw [w_final]
    nlinarith
  · rw [w_final]
    simp

theorem beam_radius_formula_witness :
    (0:ℝ) < 1 ∧ (0:ℝ) ≤ 2 ∧
    (w_final 1 2 1 = 1 * Real.sqrt (1 + (1 * 2 / (Real.pi * 1 ^ 2)) ^ 2) ∧
      1 ≤ w_final 1 2 1 ∧ w_final 1 0 1 = 1) :=
  ⟨by norm_num, by norm_num,
    beam_radius_formula 1 2 1 (by norm_num) (by norm_num) (by norm_num)⟩

/-- C3 counterexample: with the default inputs but four lasers, the "Laser
Output" stage strictly exceeds the "Driver Output" stage
(`400 · 0.30 · 4 = 480 > 400`), so the stage powers are NOT monotonically
non-increasing from "Driver Output" onward for every `laserCount ≥ 1`. -/
theorem power_chain_increases_with_four_lasers :
    driver_output pQuad < laser_output pQuad := by
  norm_num [laser_output, driver_output, required_driver_input, driver_eff,
    laser_eff, pQuad]

/-- C3, amended: the stage powers are monotonically non-increasing from the
"Laser Output" stage through the "After Receiver Optics" stage; the step from
"Driver Output" to "Laser Output" is non-increasing only when
`laserEfficiency · laserCount ≤ 1` (it increases e.g. for `laserCount = 4`). -/
theorem power_chain_nonincreasing_from_laser (p : LinkParams)
    (hin : 0 < p.inputPowerWatts) (hw : 0 < p.beamWaist)
    (hdist : 0 < p.distance) (hR : 0 < p.receiverRadius)
    (hoff : 0 ≤ p.offset) (hpe : 0 ≤ p.pointingError)
    (hn : 1 ≤ p.laserCount) :
    (laser_eff * (p.laserCount : ℝ) ≤ 1 → laser_output p ≤ driver_output p) ∧
    optics_output p ≤ laser_output p ∧
    pointing_output p ≤ optics_output p ∧
    atmospheric_output p ≤ pointing_output p ∧
    geo_output p ≤ atmospheric_output p ∧
    collection_output p ≤ geo_output p ∧
    receiver_optics_output p ≤ collection_output p := by
  have step : ∀ a b : ℝ, 0 ≤ a → b ≤ 1 → a * b ≤ a := by
    intro a b ha hb; nlinarith
  have hd0 : 0 ≤ driver_output p := by rw [driver_output_eq]; exact hin.le
  have hl0 : 0 ≤ laser_output p := by
    rw [laser_output]
    exact mul_nonneg (mul_nonneg hd0 (by norm_num [laser_eff])) (Nat.cast_nonneg _)
  have ho0 : 0 ≤ optics_output p :=
    mul_nonneg hl0 (by norm_num [optical_eff])
  have hpe1 : pointing_eff p ≤ 1 := by
    rw [pointing_eff, Real.exp_le_one_iff]
    nlinarith [sq_nonneg (delta_r p / p.beamWaist)]
  have hp0 : 0 ≤ pointing_output p :=
    mul_nonneg ho0 (Real.exp_pos _).le
  have ha0 : 0 ≤ atmospheric_output p := hp0
  have hg0 : 0 ≤ geo_output p :=
    mul_nonneg ha0 (gaussian_overlap_nonneg _ _ _)
  have hce0 : 0 ≤ collection_eff p := by
    rw [collection_eff]
    have hle : Real.exp (-2 * (p.receiverRadius / wFinal p) ^ 2) ≤ 1 := by
      rw [Real.exp_le_one_iff]
      nlinarith [sq_nonneg (p.receiverRadius / wFinal p)]
    linarith
  have hce1 : collection_eff p ≤ 1 := by
    rw [collection_eff]
    linarith [Real.exp_pos (-2 * (p.receiverRadius / wFinal p) ^ 2)]
  have hc0 : 0 ≤ collection_output p := mul_nonneg hg0 hce0
  refine ⟨?_, ?_, ?_, le_of_eq rfl, ?_, ?_, ?_⟩
  · intro h
    calc laser_output p = driver_output p * (laser_eff * (p.laserCount : ℝ)) := by
          rw [laser_output]; ring
    _ ≤ driver_output p := step _ _ hd0 h
  · exact step _ _ hl0 (by norm_num [optical_eff])
  · exact step _ _ ho0 hpe1
  · exact step _ _ ha0 (gaussian_overlap_le_one _ _ _)
  · exact step _ _ hg0 hce1
  · exact step _ _ hc0 (by norm_num [receiver_optics_eff])

theorem power_chain_nonincreasing_from_laser_witness :
    (0:ℝ) < pDefault.inputPowerWatts ∧ 1 ≤ pDefault.laserCount ∧
    (optics_output pDefault ≤ laser_output pDefault ∧
      pointing_output pDefault ≤ optics_output pDefault ∧
      geo_output pDefault ≤ atmospheric_output pDefault ∧
      receiver_optics_output pDefault ≤ collection_output pDefault) := by
  have h := power_chain_nonincreasing_from_laser pDefault
    (by norm_num [pDefault]) (by norm_num [pDefault]) (by norm_num [pDefault])
    (by norm_num [pDefault]) (by norm_num [pDefault]) (by norm_num [pDefault])
    (by norm_num [pDefault])
  exact ⟨by norm_num [pDefault], by norm_num [pDefault],
    h.2.1, h.2.2.1, h.2.2.2.2.1, h.2.2.2.2.2.2⟩

/-- C4: at zero offset the offset-aware overlap efficiency equals the
centered-aperture efficiency exactly, and equals the `collection_eff` form
`1 − exp(−2·(R/w)²)` used by the chain. -/
theorem overlap_zero_offset_eq_centered (R w : ℝ) (hw : 0 < w) :
    gaussian_overlap R w 0 = centeredApertureEfficiency R w ∧
    gaussian_overlap R w 0 = 1 - Real.exp (-2 * (R / w) ^ 2) := by
  constructor
  · rw [gaussian_overlap_zero_offset, centeredApertureEfficiency]
  · rw [gaussian_overlap_zero_offset,
      show (-2 * R ^ 2 / w ^ 2 : ℝ) = -2 * (R / w) ^ 2 from by ring]

theorem overlap_zero_offset_eq_centered_witness :
    (0:ℝ) < 2 ∧
    (gaussian_overlap 1 2 0 = centeredApertureEfficiency 1 2 ∧
      gaussian_overlap 1 2 0 = 1 - Real.exp (-2 * ((1:ℝ) / 2) ^ 2)) :=
  ⟨by norm_num, overlap_zero_offset_eq_centered 1 2 (by norm_num)⟩

/-- C5: the first stage power equals the requested input power: the driver
efficiency cancels in `(inputPowerWatts / driverEfficiency) · driverEfficiency`. -/
theorem driver_output_is_input (p : LinkParams) :
    driver_output p = p.inputPowerWatts :=
  driver_output_eq p

/-- C6: the reported total efficiency divides the final output by the
re-derived required driver input `inputPowerWatts / driverEfficiency`
(not by `inputPowerWatts` itself), times 100. -/
theorem total_efficiency_formula (p : LinkParams) :
    total_efficiency p = final_output p / (p.inputPowerWatts / driver_eff) * 100 ∧
    required_driver_input p = p.inputPowerWatts / driver_eff :=
  ⟨rfl, rfl⟩

/-- C7: doubling the laser count doubles the "Laser Output" stage power and
every downstream stage power, including the final output. -/
theorem doubling_lasers_doubles_chain (p : LinkParams) :
    laser_output (doubleLasers p) = 2 * laser_output p ∧
    optics_output (doubleLasers p) = 2 * optics_output p ∧
    pointing_output (doubleLasers p) = 2 * pointing_output p ∧
    atmospheric_output (doubleLasers p) = 2 * atmospheric_output p ∧
    geo_output (doubleLasers p) = 2 * geo_output p ∧
    collection_output (doubleLasers p) = 2 * collection_output p ∧
    receiver_optics_output (doubleLasers p) = 2 * receiver_optics_output p ∧
    pv_output (doubleLasers p) = 2 * pv_output p ∧
    final_output (doubleLasers p) = 2 * final_output p := by
  have hcast : ((2 * p.laserCount : ℕ) : ℝ) = 2 * (p.laserCount : ℝ) := by
    push_cast; ring
  have hdrv : driver_output (doubleLasers p) = driver_output p := rfl
  have hlaser : laser_output (doubleLasers p) = 2 * laser_output p := by
    show driver_output (doubleLasers p) * laser_eff *
        ((doubleLasers p).laserCount : ℝ) =
      2 * (driver_output p * laser_eff * (p.laserCount : ℝ))
    rw [hdrv, show (doubleLasers p).laserCount = 2 * p.laserCount from rfl, hcast]
    ring
  have hopt : optics_output (doubleLasers p) = 2 * optics_output p := by
    show laser_output (doubleLasers p) * optical_eff =
      2 * (laser_output p * optical_eff)
    rw [hlaser]; ring
  have hpef : pointing_eff (doubleLasers p) = pointing_eff p := rfl
  have hpnt : pointing_output (doubleLasers p) = 2 * pointing_output p := by
    show optics_output (doubleLasers p) * pointing_eff (doubleLasers p) =
      2 * (optics_output p * pointing_eff p)
    rw [hopt, hpef]; ring
  have hatm : atmospheric_output (doubleLasers p) = 2 * atmospheric_output p :=
    hpnt
  have hgef : geo_eff (doubleLasers p) = geo_eff p := rfl
  have hgeo : geo_output (doubleLasers p) = 2 * geo_output p := by
    show atmospheric_output (doubleLasers p) * geo_eff (doubleLasers p) =
      2 * (atmospheric_output p * geo_eff p)
    rw [hatm, hgef]; ring
  have hcef : collection_eff (doubleLasers p) = collection_eff p := rfl
  have hcol : collection_output (doubleLasers p) = 2 * collection_output p := by
    show geo_output (doubleLasers p) * collection_eff (doubleLasers p) =
      2 * (geo_output p * collection_eff p)
    rw [hgeo, hcef]; ring
  have hrec : receiver_optics_output (doubleLasers p) =
      2 * receiver_optics_output p := by
    show collection_output (doubleLasers p) * receiver_optics_eff =
      2 * (collection_output p * receiver_optics_eff)
    rw [hcol]; ring
  have hpva : pv_area (doubleLasers p) = pv_area p := rfl
  have hpv : pv_output (doubleLasers p) = 2 * pv_output p := by
    show receiver_optics_output (doubleLasers p) * pv_area (doubleLasers p) *
        pv_eff = 2 * (receiver_optics_output p * pv_area p * pv_eff)
    rw [hrec, hpva]; ring
  have hfin : final_output (doubleLasers p) = 2 * final_output p := by
    show pv_output (doubleLasers p) * conditioning_eff =
      2 * (pv_output p * conditioning_eff)
    rw [hpv]; ring
  exact ⟨hlaser, hopt, hpnt, hatm, hgeo, hcol, hrec, hpv, hfin⟩

/-- C8 counterexample: at beam radius `w = 1` and offset `d = 2`, growing the
receiver radius from `0` to `1/2` strictly DECREASES `gaussian_overlap`
(because `I₀ 4 > exp (1/2)`), so the offset-aware overlap efficiency is not
monotonically increasing in the receiver radius. -/
theorem overlap_not_monotone_in_radius :
    gaussian_overlap (1 / 2) 1 2 < gaussian_overlap 0 1 2 := by
  have hA : gaussian_overlap 0 1 2 = 1 - Real.exp (-8) := by
    rw [gaussian_overlap,
      show (-2 * (2:ℝ) ^ 2 / 1 ^ 2) = -8 from by norm_num,
      show (-2 * (0:ℝ) ^ 2 / 1 ^ 2) = 0 from by norm_num,
      show (4 * (0:ℝ) * 2 / 1 ^ 2) = 0 from by norm_num,
      besselI0_zero, Real.exp_zero, mul_one, mul_one]
    apply max_eq_left
    have h8 : Real.exp (-8:ℝ) ≤ 1 := by
      rw [Real.exp_le_one_iff]; norm_num
    linarith
  have hB : gaussian_overlap (1 / 2) 1 2 =
      max (1 - Real.exp (-8) * Real.exp (-(1 / 2)) * besselI0 4) 0 := by
    rw [gaussian_overlap,
      show (-2 * (2:ℝ) ^ 2 / 1 ^ 2) = -8 from by norm_num,
      show (-2 * ((1:ℝ) / 2) ^ 2 / 1 ^ 2) = -(1 / 2) from by norm_num,
      show (4 * ((1:ℝ) / 2) * 2 / 1 ^ 2) = 4 from by norm_num]
  rw [hA, hB]
  have hI : Real.exp (1 / 2) < besselI0 4 :=
    lt_of_lt_of_le exp_half_lt_exp_two_div_three exp_two_div_three_le_besselI0_four
  have hinv : Real.exp (-(1 / 2 : ℝ)) * Real.exp (1 / 2) = 1 := by
    rw [← Real.exp_add]; norm_num
  have hmain : Real.exp (-8:ℝ) <
      Real.exp (-8) * Real.exp (-(1 / 2)) * besselI0 4 := by
    have hp8 := Real.exp_pos (-8:ℝ)
    have hph := Real.exp_pos (-(1 / 2 : ℝ))
    have h1 : 1 < Real.exp (-(1 / 2)) * besselI0 4 := by nlinarith
    nlinarith
  apply max_lt
  · linarith
  · have h8 : Real.exp (-8:ℝ) < 1 := by
      rw [Real.exp_lt_one_iff]; norm_num
    linarith

/-- C8, amended: the centered-aperture efficiency is monotonically increasing
in `R`, monotonically decreasing in `w`, and bounded in `[0,1]`;
`gaussian_overlap` is bounded in `[0,1]`, monotonically decreasing in `w`
(for any offset `d ≥ 0`), and monotonically increasing in `R` at zero offset —
but for positive offset it can strictly decrease as `R` grows, so the claimed
monotonicity in `R` holds only for the centered forms. -/
theorem overlap_monotonicity_amended (R R₁ R₂ w w₁ w₂ d : ℝ)
    (hR : 0 ≤ R) (hR1 : 0 ≤ R₁) (hR12 : R₁ ≤ R₂) (hw : 0 < w)
    (hw1 : 0 < w₁) (hw12 : w₁ ≤ w₂) (hd : 0 ≤ d) :
    centeredApertureEfficiency R₁ w ≤ centeredApertureEfficiency R₂ w ∧
    centeredApertureEfficiency R w₂ ≤ centeredApertureEfficiency R w₁ ∧
    (0 ≤ centeredApertureEfficiency R w ∧ centeredApertureEfficiency R w ≤ 1) ∧
    (0 ≤ gaussian_overlap R w d ∧ gaussian_overlap R w d ≤ 1) ∧
    gaussian_overlap R₁ w 0 ≤ gaussian_overlap R₂ w 0 ∧
    gaussian_overlap R w₂ d ≤ gaussian_overlap R w₁ d := by
  refine ⟨centered_mono_R hR1 hR12 hw, centered_anti_w hw1 hw12,
    ⟨centered_nonneg R w, centered_le_one R w⟩,
    ⟨gaussian_overlap_nonneg R w d, gaussian_overlap_le_one R w d⟩, ?_,
    gaussian_overlap_anti_w hR hd hw1 hw12⟩
  rw [gaussian_overlap_zero_offset, gaussian_overlap_zero_offset]
  exact centered_mono_R hR1 hR12 hw

theorem overlap_monotonicity_amended_witness :
    (0:ℝ) ≤ 1 ∧ (1:ℝ) ≤ 2 ∧ (0:ℝ) < 1 ∧
    (centeredApertureEfficiency 1 1 ≤ centeredApertureEfficiency 2 1 ∧
      centeredApertureEfficiency 1 2 ≤ centeredApertureEfficiency 1 1 ∧
      (0 ≤ centeredApertureEfficiency 1 1 ∧ centeredApertureEfficiency 1 1 ≤ 1) ∧
      (0 ≤ gaussian_overlap 1 1 1 ∧ gaussian_overlap 1 1 1 ≤ 1) ∧
      gaussian_overlap 1 1 0 ≤ gaussian_overlap 2 1 0 ∧
      gaussian_overlap 1 2 1 ≤ gaussian_overlap 1 1 1) :=
  ⟨by norm_num, by norm_num, by norm_num,
    overlap_monotonicity_amended 1 1 2 1 1 2 1 (by norm_num) (by norm_num)
      (by norm_num) (by norm_num) (by norm_num) (by norm_num) (by norm_num)⟩

/-- C9: the evaluation emits exactly 10 (label, power) pairs in the fixed
pipeline order, and the "Atmospheric (Skipped)" stage's power equals the
"After Pointing" power exactly (a pass-through, no attenuation). -/
theorem stages_structure (p : LinkParams) :
    (stages p).length = 10 ∧
    (stages p).map Prod.fst = ["Driver Output", "Laser Output", "After Optics",
      "After Pointing", "Atmospheric (Skipped)", "After Geometric Loss",
      "After Collection", "After Receiver Optics", "PV Output",
      "Final Output"] ∧
    (stages p).map Prod.snd = [driver_output p, laser_output p,
      optics_output p, pointing_output p, pointing_output p, geo_output p,
      collection_output p, receiver_optics_output p, pv_output p,
      final_output p] :=
  ⟨rfl, rfl, rfl⟩

/-- C10: for `R ≥ 0`, `d ≥ 0` and `w > 0` the overlap efficiency lies in
`[0, 1)`: the subtracted product is strictly positive because both
exponentials are positive and `I₀ ≥ 1`, so the result never reaches 1. -/
theorem overlap_lt_one (R w d : ℝ) (hR : 0 ≤ R) (hd : 0 ≤ d) (hw : 0 < w) :
    0 ≤ gaussian_overlap R w d ∧ gaussian_overlap R w d < 1 := by
  refine ⟨gaussian_overlap_nonneg R w d, ?_⟩
  apply max_lt _ one_pos
  have hI := besselI0_pos (4 * R * d / w ^ 2)
  have e1 := Real.exp_pos (-2 * d ^ 2 / w ^ 2)
  have e2 := Real.exp_pos (-2 * R ^ 2 / w ^ 2)
  have hprod : 0 < Real.exp (-2 * d ^ 2 / w ^ 2) * Real.exp (-2 * R ^ 2 / w ^ 2) *
      besselI0 (4 * R * d / w ^ 2) := mul_pos (mul_pos e1 e2) hI
  linarith

theorem overlap_lt_one_witness :
    (0:ℝ) ≤ 1 ∧ (0:ℝ) < 1 ∧
    (0 ≤ gaussian_overlap 1 1 1 ∧ gaussian_overlap 1 1 1 < 1) :=
  ⟨by norm_num, by norm_num,
    overlap_lt_one 1 1 1 (by norm_num) (by norm_num) (by norm_num)⟩

end LaserPower
